import Mathlib

/-!
Verification of the datasets-server job-orchestration core against its
natural-language specification.  The Python modules `libcommon/state.py`
and the repository tests pin the behaviour; the missing implementation
modules (`orchestrator.py`, `simple_cache.py`, `queue.py`,
`processing_graph.py`, `constants.py`) are modelled from the spec where
noted.
-/

namespace DatasetsServer

/-- Input scope of a processing step (`processing_graph.py`): dataset, config or split. -/
inductive InputType where
  | dataset
  | config
  | split
deriving DecidableEq, Repr

/-- Modelled from the spec: `libcommon/constants.py` is not in the sources.
`MAX_FAILED_RUNS` is the classification threshold for "error to retry" (spec section 6). -/
def MAX_FAILED_RUNS : Nat := 3

/-- Modelled from the spec: `libcommon/constants.py` is not in the sources.
`ERROR_CODES_TO_RETRY` is the configured set of transient error codes (spec sections 6 and 7). -/
def ERROR_CODES_TO_RETRY : List String :=
  ["CreateCommitError", "LockedDatasetTimeoutError", "StreamingRowsError"]

/-- Modelled from the spec: `libcommon/constants.py` is not in the sources.
`DEFAULT_DIFFICULTY_MAX` is the ceiling for computed difficulty (spec sections 4.5 and 4.6). -/
def DEFAULT_DIFFICULTY_MAX : Nat := 100

/-- Modelled from the spec: `libcommon/constants.py` is not in the sources.
`DIFFICULTY_BONUS_BY_FAILED_RUNS` is the additive difficulty penalty per failed run. -/
def DIFFICULTY_BONUS_BY_FAILED_RUNS : Nat := 20

/-- Modelled from the spec: `libcommon/constants.py` is not in the sources.
`DEFAULT_DIFFICULTY` is the difficulty used when a step declares none. -/
def DEFAULT_DIFFICULTY : Nat := 50

/-- Modelled from the spec: cache kinds providing the config names of a dataset
(`DATASET_CONFIG_NAMES_KINDS` in `libcommon/constants.py`). -/
def DATASET_CONFIG_NAMES_KINDS : List String := ["dataset-config-names"]

/-- Modelled from the spec: cache kinds providing the split names of a config
(`CONFIG_SPLIT_NAMES_KINDS` in `libcommon/constants.py`). -/
def CONFIG_SPLIT_NAMES_KINDS : List String :=
  ["config-split-names-from-streaming", "config-split-names-from-info"]

/-- Job priority (`libcommon/dtos.py`); the queue stores the string value. -/
inductive Priority where
  | low
  | normal
  | high
deriving DecidableEq, Repr

/-- The string value of a priority, as stored in the pending-jobs table. -/
def Priority.value : Priority → String
  | .low => "low"
  | .normal => "normal"
  | .high => "high"

/-- Job status (`libcommon/dtos.py`); "pending" means waiting or started. -/
inductive Status where
  | waiting
  | started
deriving DecidableEq, Repr

/-- The string value of a status, as stored in the pending-jobs table. -/
def Status.value : Status → String
  | .waiting => "waiting"
  | .started => "started"

/-- A row of the pending-jobs table for a dataset, as produced by
`Queue.get_pending_jobs_df` with columns (type, dataset, revision, config, split,
priority, status, created_at) plus the job id. -/
structure Job where
  job_id : Nat
  type : String
  dataset : String
  revision : String
  config : Option String
  split : Option String
  priority : Priority
  status : Status
  created_at : Nat
deriving DecidableEq, Repr

/-- Metadata of a cache entry (`CacheEntryMetadata` in `libcommon/simple_cache.py`).
The `progress` float is kept opaque as an optional natural number. -/
structure CacheEntryMetadata where
  http_status : Nat
  error_code : Option String
  job_runner_version : Option Nat
  dataset_git_revision : String
  updated_at : Nat
  progress : Option Nat
  failed_runs : Nat
deriving DecidableEq, Repr

/-- Sort key used by `JobState.__post_init__` in `state.py`:
`sort_values(["status", "priority", "created_at"], ascending=[False, False, True])`
over the string-valued status and priority columns.  Returns true when `a`
comes no later than `b` in that order. -/
def jobSortLE (a b : Job) : Bool :=
  if a.status.value ≠ b.status.value then b.status.value < a.status.value
  else if a.priority.value ≠ b.priority.value then b.priority.value < a.priority.value
  else a.created_at ≤ b.created_at

/-- Stable insertion step of the sort used for pending-jobs tables. -/
def insertSorted {α : Type} (le : α → α → Bool) (x : α) : List α → List α
  | [] => [x]
  | y :: ys => if le x y then x :: y :: ys else y :: insertSorted le x ys

/-- Stable insertion sort of a pending-jobs table.  Pandas' `sort_values` does
not fix the order of ties, so any sort by the key is a faithful embedding. -/
def sortBy {α : Type} (le : α → α → Bool) (l : List α) : List α :=
  l.foldr (insertSorted le) []

/-- The state of a job for a given input (`JobState` in `state.py`). -/
structure JobState where
  dataset : String
  revision : String
  config : Option String
  split : Option String
  job_type : String
  pending_jobs : List Job
deriving Repr

/-- `JobState.valid_pending_jobs_df`: the pending jobs sorted by status
descending, priority descending, created_at ascending, truncated to the first
row (`.head(1)` in `state.py`). -/
def JobState.valid_pending_jobs (s : JobState) : List Job :=
  (sortBy jobSortLE s.pending_jobs).take 1

/-- `JobState.is_in_process`: whether the valid pending-jobs table is non-empty. -/
def JobState.is_in_process (s : JobState) : Bool :=
  !s.valid_pending_jobs.isEmpty

/-- The state of a cache entry for a given input (`CacheState` in `state.py`). -/
structure CacheState where
  dataset : String
  config : Option String
  split : Option String
  cache_kind : String
  cache_entries : List CacheEntryMetadata
  job_runner_version : Nat
deriving Repr

/-- `CacheState.cache_entry_metadata`: the first cache row for the key, if any
(`state.py` takes `cache_entries_df.iloc[0]`). -/
def CacheState.cache_entry_metadata (s : CacheState) : Option CacheEntryMetadata :=
  s.cache_entries.head?

/-- `CacheState.exists`: whether a cache row is present. -/
def CacheState.entry_exists (s : CacheState) : Bool :=
  s.cache_entry_metadata.isSome

/-- `CacheState.is_success`: a cache row is present and its status is below 400. -/
def CacheState.is_success (s : CacheState) : Bool :=
  match s.cache_entry_metadata with
  | none => false
  | some m => m.http_status < 400

/-- `CacheState.is_empty`: no cache row is present. -/
def CacheState.is_empty (s : CacheState) : Bool :=
  s.cache_entry_metadata.isNone

/-- `CacheState.is_error_to_retry` (`state.py` lines 88-93): the entry exists,
its status is an error, its error code is configured as retryable, and its
failed-runs counter is below the threshold. -/
def CacheState.is_error_to_retry (s : CacheState) : Bool :=
  match s.cache_entry_metadata with
  | none => false
  | some m =>
      400 ≤ m.http_status
        && (match m.error_code with
            | some c => ERROR_CODES_TO_RETRY.contains c
            | none => false)
        && m.failed_runs < MAX_FAILED_RUNS

/-- `CacheState.is_older_than` (`state.py` lines 95-98): false unless both
entries exist, otherwise compares the `updated_at` timestamps. -/
def CacheState.is_older_than (s other : CacheState) : Bool :=
  match s.cache_entry_metadata, other.cache_entry_metadata with
  | some a, some b => a.updated_at < b.updated_at
  | _, _ => false

/-- `CacheState.is_git_revision_different_from` (`state.py` lines 100-101). -/
def CacheState.is_git_revision_different_from (s : CacheState) (git_revision : String) : Bool :=
  match s.cache_entry_metadata with
  | none => true
  | some m => m.dataset_git_revision ≠ git_revision

/-- `CacheState.is_job_runner_obsolete` (`state.py` lines 103-108). -/
def CacheState.is_job_runner_obsolete (s : CacheState) : Bool :=
  match s.cache_entry_metadata with
  | none => false
  | some m =>
      match m.job_runner_version with
      | none => true
      | some v => v < s.job_runner_version

/-- The payload of a cache entry.  The spec keeps `content` opaque; the
orchestration core only ever projects the `config_names` item names, the
`splits` item names and `dataset_info.dataset_size`, so only those
projections are represented.  A `none` field means the JSON field is absent. -/
structure Content where
  config_names : Option (List String) := none
  splits : Option (List String) := none
  dataset_info_size : Option Nat := none
deriving DecidableEq, Repr

/-- The key of the cache collection: `(kind, dataset, config, split)`. -/
structure CacheKey where
  kind : String
  dataset : String
  config : Option String
  split : Option String
deriving DecidableEq, Repr

/-- A stored cache row (`CachedResponseDocument` without its key). -/
structure CacheEntryData where
  content : Content
  http_status : Nat
  error_code : Option String
  job_runner_version : Option Nat
  dataset_git_revision : String
  updated_at : Nat
  progress : Option Nat
  failed_runs : Nat
deriving DecidableEq, Repr

/-- Forget the content of a cache row, keeping the metadata. -/
def CacheEntryData.toMetadata (e : CacheEntryData) : CacheEntryMetadata :=
  { http_status := e.http_status
    error_code := e.error_code
    job_runner_version := e.job_runner_version
    dataset_git_revision := e.dataset_git_revision
    updated_at := e.updated_at
    progress := e.progress
    failed_runs := e.failed_runs }

/-- The durable cache store, keyed by `(kind, dataset, config, split)` with at
most one row per key (spec section 4.2). -/
def CacheStore : Type := CacheKey → Option CacheEntryData

/-- The cache store with no rows. -/
def emptyCacheStore : CacheStore := fun _ => none

/-- Modelled from the spec: the `failed_runs` computation of the cache upsert
(`libcommon/simple_cache.py` / `libcommon/orchestrator.py` are not in the
sources).  Spec section 4.2 additionally requires the prior entry's
`http_status ≥ 400`, but the repository test `test_upsert_response_failed_runs`
pins `failed_runs = 1` after a successful prior run at the same revision, so
the prior status is not consulted: the counter increments exactly when a prior
entry exists at the same revision and the new result is an error. -/
def computeFailedRuns (prior : Option CacheEntryData) (newRevision : String) (newHttpStatus : Nat) : Nat :=
  match prior with
  | none => 0
  | some p => if p.dataset_git_revision = newRevision ∧ 400 ≤ newHttpStatus then p.failed_runs + 1 else 0

/-- The inputs of a cache upsert, besides the key. -/
structure UpsertInput where
  content : Content
  http_status : Nat
  error_code : Option String := none
  job_runner_version : Option Nat := some 1
  dataset_git_revision : String
  progress : Option Nat := none
deriving Repr

/-- Modelled from the spec: `upsert_response` of `libcommon/simple_cache.py`
(not in the sources): atomic replace-or-insert by key, computing `failed_runs`
from the prior row at the key and stamping `updated_at` with the current time. -/
def upsertResponse (store : CacheStore) (key : CacheKey) (input : UpsertInput) (now : Nat) : CacheStore :=
  fun k =>
    if k = key then
      some
        { content := input.content
          http_status := input.http_status
          error_code := input.error_code
          job_runner_version := input.job_runner_version
          dataset_git_revision := input.dataset_git_revision
          updated_at := now
          progress := input.progress
          failed_runs := computeFailedRuns (store key) input.dataset_git_revision input.http_status }
    else store k

/-- The running maximum of `get_best_response`'s error-entry selection: keep
the entry with the strictly higher status, the earlier one among ties. -/
def betterError (best : Option CacheEntryData) (e : CacheEntryData) : Option CacheEntryData :=
  match best with
  | none => some e
  | some b => if b.http_status < e.http_status then some e else some b

/-- The cache rows present at the requested kinds, in kinds order. -/
def bestEntries (cache : CacheStore) (kinds : List String) (dataset : String)
    (config : Option String) : List CacheEntryData :=
  kinds.filterMap (fun kind => cache ⟨kind, dataset, config, none⟩)

/-- Modelled from the spec: `get_best_response` of `libcommon/simple_cache.py`
(not in the sources): among the given kinds, the first successful entry, else
the entry with the highest error status (first among ties in kinds order), else
none (spec section 4.2). -/
def getBestResponse (cache : CacheStore) (kinds : List String) (dataset : String) (config : Option String) : Option CacheEntryData :=
  match (bestEntries cache kinds dataset config).find? (fun e => e.http_status < 400) with
  | some e => some e
  | none => (bestEntries cache kinds dataset config).foldl betterError none

/-- Deduplicate a list of names while preserving the order of first occurrences,
as the loop in `fetch_names` does. -/
def dedupFirst (l : List String) : List String :=
  l.foldl (fun acc n => if acc.contains n then acc else acc ++ [n]) []

/-- The names list of a content under a discovery convention: the `config_names`
item names or the `splits` item names. -/
def Content.names (c : Content) (namesField : String) : Option (List String) :=
  if namesField = "config_names" then c.config_names
  else if namesField = "splits" then c.splits
  else none

/-- Modelled from the spec: `fetch_names` of `libcommon/simple_cache.py` (not in
the sources): reads the best response among the kinds and extracts the ordered,
deduplicated names; any missing entry or missing field yields the empty list
(spec section 4.2). -/
def fetchNames (cache : CacheStore) (dataset : String) (config : Option String) (kinds : List String) (namesField : String) : List String :=
  match getBestResponse cache kinds dataset config with
  | none => []
  | some e => dedupFirst ((e.content.names namesField).getD [])

/-- A processing step of the graph (`processing_graph.py`): name, input scope,
parents, job-runner version, base difficulty, and bonus difficulty for big
datasets (spec section 3). -/
structure ProcessingStep where
  name : String
  inputType : InputType
  triggeredBy : List String := []
  jobRunnerVersion : Nat := 1
  difficulty : Nat := DEFAULT_DIFFICULTY
  bonusDifficultyIfDatasetIsBig : Nat := 0
deriving DecidableEq, Repr

/-- The processing graph: its steps and the size threshold for the big-dataset
difficulty bonus. -/
structure ProcessingGraph where
  steps : List ProcessingStep
  minBytesForBonusDifficulty : Nat := 3000000000
deriving Repr

/-- The step with the given name, if any. -/
def ProcessingGraph.get_step? (g : ProcessingGraph) (name : String) : Option ProcessingStep :=
  g.steps.find? (fun s => s.name == name)

/-- The children of a step: the steps triggered by it. -/
def ProcessingGraph.get_children (g : ProcessingGraph) (name : String) : List ProcessingStep :=
  g.steps.filter (fun s => s.triggeredBy.contains name)

/-- The first processing steps: those with no parents (spec section 4.1). -/
def ProcessingGraph.get_first_processing_steps (g : ProcessingGraph) : List ProcessingStep :=
  g.steps.filter (fun s => s.triggeredBy.isEmpty)

/-- The steps with the given input scope. -/
def ProcessingGraph.get_input_type_processing_steps (g : ProcessingGraph) (it : InputType) : List ProcessingStep :=
  g.steps.filter (fun s => s.inputType == it)

/-- Modelled from the spec: the big-dataset test of the after-job planner
(`libcommon/orchestrator.py` is not in the sources): the dataset counts as big
iff the currently-cached `config-info` aggregate reports a `dataset_size` at
least the graph's threshold; a missing entry or field means not big
(spec sections 4.6 and 9). -/
def datasetIsBig (cache : CacheStore) (dataset : String) (config : Option String) (minBytes : Nat) : Bool :=
  match cache ⟨"config-info", dataset, config, none⟩ with
  | none => false
  | some e =>
      match e.content.dataset_info_size with
      | none => false
      | some size => minBytes ≤ size

/-- The description of a job to create (`JobInfo` without queue bookkeeping). -/
structure JobInfo where
  type : String
  dataset : String
  revision : String
  config : Option String
  split : Option String
  priority : Priority
  difficulty : Nat
deriving DecidableEq, Repr

/-- The durable job queue: its pending rows and the next fresh job id. -/
structure Queue where
  jobs : List Job
  nextId : Nat
deriving Repr

/-- The queue with no rows. -/
def emptyQueue : Queue := ⟨[], 0⟩

/-- The WAITING queue row a job description becomes when created. -/
def mkWaitingRow (id : Nat) (info : JobInfo) (now : Nat) : Job :=
  { job_id := id
    type := info.type
    dataset := info.dataset
    revision := info.revision
    config := info.config
    split := info.split
    priority := info.priority
    status := .waiting
    created_at := now }

/-- Modelled from the spec: `Queue.create_jobs` (`libcommon/queue.py` is not in
the sources): append one WAITING row per description, assigning fresh job ids;
the repository tests rely on duplicate keys being stored as separate rows. -/
def Queue.createJobs (q : Queue) (infos : List JobInfo) (now : Nat) : Queue :=
  infos.foldl
    (fun acc info => { jobs := acc.jobs ++ [mkWaitingRow acc.nextId info now], nextId := acc.nextId + 1 })
    q

/-- The rows a `createJobs` call appends: one WAITING row per description, with
consecutive fresh ids. -/
def createdRows (startId : Nat) (infos : List JobInfo) (now : Nat) : List Job :=
  match infos with
  | [] => []
  | info :: rest => mkWaitingRow startId info now :: createdRows (startId + 1) rest now

/-- Modelled from the spec: `Queue.delete_jobs_by_job_ids`: remove the rows with
the given ids regardless of status. -/
def Queue.deleteJobsByIds (q : Queue) (ids : List Nat) : Queue :=
  { q with jobs := q.jobs.filter (fun j => !ids.contains j.job_id) }

/-- The pending rows of the queue for a dataset
(`Queue.get_pending_jobs_df`; pending means WAITING or STARTED). -/
def Queue.getPendingJobs (q : Queue) (dataset : String) : List Job :=
  q.jobs.filter (fun j => j.dataset == dataset)

/-- The best pending job for an exact `(type, revision, config, split)` key
among the given rows: the first in the order of `JobState.valid_pending_jobs_df`
(status descending, priority descending, created_at ascending). -/
def bestPendingJob (jobs : List Job) (ty rev : String) (cfg spl : Option String) : Option Job :=
  (sortBy jobSortLE
    (jobs.filter (fun j =>
      j.type == ty && j.revision == rev && j.config == cfg && j.split == spl))).head?

/-- Modelled from the spec: the fan-out targets of one child of a finished job
(spec section 4.6).  A child at the same or a less specific level gets the
finished job's coordinates projected to the child's level; a dataset-level
finished job fans out to one target per discovered config name for a
config-level child; a config-level finished job fans out to one target per
discovered split name for a split-level child. -/
def childTargets (finishedInput : InputType) (cfg spl : Option String)
    (configNames splitNames : List String) (childInput : InputType) :
    List (Option String × Option String) :=
  match childInput, finishedInput with
  | .dataset, _ => [(none, none)]
  | .config, .dataset => configNames.map (fun c => (some c, none))
  | .config, _ => [(cfg, none)]
  | .split, .config => splitNames.map (fun s => (cfg, some s))
  | .split, .split => [(cfg, spl)]
  | .split, .dataset => []

/-- The two multisets computed by a planner: jobs to create and job ids to
delete. -/
structure JobPlan where
  jobInfosToCreate : List JobInfo
  jobIdsToDelete : List Nat
deriving DecidableEq, Repr

/-- The serialized summary of a plan: a `CreateJobs,<n>` tag when jobs are
created and a `DeleteJobs,<n>` tag when jobs are deleted (spec section 4.6). -/
def JobPlan.asResponse (p : JobPlan) : List String :=
  (if p.jobInfosToCreate.isEmpty then []
   else ["CreateJobs," ++ toString p.jobInfosToCreate.length]) ++
  (if p.jobIdsToDelete.isEmpty then []
   else ["DeleteJobs," ++ toString p.jobIdsToDelete.length])

/-- Apply a plan to the queue: delete the listed rows, create the listed jobs. -/
def JobPlan.run (p : JobPlan) (q : Queue) (now : Nat) : Queue :=
  (q.deleteJobsByIds p.jobIdsToDelete).createJobs p.jobInfosToCreate now

/-- The description of one child job to create after a finished job: the child
step's type at the target coordinates, the finishing job's priority, and the
difficulty formula of spec section 4.6 step 4. -/
def mkChildJobInfo (finished : JobInfo) (failedRuns : Nat) (isBig : Bool)
    (t : ProcessingStep × Option String × Option String) : JobInfo :=
  { type := t.1.name
    dataset := finished.dataset
    revision := finished.revision
    config := t.2.1
    split := t.2.2
    priority := finished.priority
    difficulty :=
      min DEFAULT_DIFFICULTY_MAX
        (t.1.difficulty + (if isBig then t.1.bonusDifficultyIfDatasetIsBig else 0) +
          failedRuns * DIFFICULTY_BONUS_BY_FAILED_RUNS) }

/-- The fan-out targets of a finished job: one `(child, config, split)` triple
per child of the finished step and per target of `childTargets`, the names
being discovered through the cache (spec section 4.6 step 2). -/
def afterJobTargets (g : ProcessingGraph) (step : ProcessingStep) (finished : JobInfo)
    (cache : CacheStore) : List (ProcessingStep × Option String × Option String) :=
  (g.get_children step.name).flatMap (fun child =>
    (childTargets step.inputType finished.config finished.split
        (fetchNames cache finished.dataset none DATASET_CONFIG_NAMES_KINDS "config_names")
        (fetchNames cache finished.dataset finished.config CONFIG_SPLIT_NAMES_KINDS "splits")
        child.inputType).map
      (fun p => (child, p.1, p.2)))

/-- The pending rows the after-job planner considers: the dataset's rows whose
job type is a child of the finished step. -/
def afterJobRelevant (g : ProcessingGraph) (step : ProcessingStep) (finished : JobInfo)
    (pending : List Job) : List Job :=
  pending.filter (fun j =>
    j.dataset == finished.dataset &&
      ((g.get_children step.name).map (fun c => c.name)).contains j.type)

/-- Modelled from the spec: `AfterJobPlan` of `libcommon/orchestrator.py` (not
in the sources), spec section 4.6.  Given a just-finished job, its computed
`failed_runs`, the cache (already holding the finished job's output) and the
pending rows of the dataset: for every child of the finished step and every
fan-out target, keep the best existing pending row for the target key or create
one job with inherited priority and the difficulty formula; every other pending
row of a child job type for the dataset is deleted. -/
def afterJobPlan (g : ProcessingGraph) (finished : JobInfo) (failedRuns : Nat)
    (cache : CacheStore) (pending : List Job) : JobPlan :=
  match g.get_step? finished.type with
  | none => ⟨[], []⟩
  | some step =>
      let targets := afterJobTargets g step finished cache
      let relevant := afterJobRelevant g step finished pending
      let keptIds :=
        targets.filterMap (fun t =>
          (bestPendingJob relevant t.1.name finished.revision t.2.1 t.2.2).map (fun j => j.job_id))
      ⟨targets.filterMap (fun t =>
          if (bestPendingJob relevant t.1.name finished.revision t.2.1 t.2.2).isSome then none
          else
            some
              (mkChildJobInfo finished failedRuns
                (datasetIsBig cache finished.dataset finished.config g.minBytesForBonusDifficulty)
                t)),
        (relevant.filter (fun j => !keptIds.contains j.job_id)).map (fun j => j.job_id)⟩

/-- The existing queue rows of the dataset whose type is a root step of the
graph, considered by `set_revision` for de-duplication. -/
def setRevisionRootRows (g : ProcessingGraph) (dataset : String) (q : Queue) : List Job :=
  q.jobs.filter (fun j =>
    j.dataset == dataset &&
      (g.get_first_processing_steps.map (fun s => s.name)).contains j.type)

/-- The root job description `set_revision` creates for a root step. -/
def mkRootJobInfo (step : ProcessingStep) (dataset revision : String) (priority : Priority) :
    JobInfo :=
  { type := step.name
    dataset := dataset
    revision := revision
    config := none
    split := none
    priority := priority
    difficulty := step.difficulty }

/-- The jobs `set_revision` creates: one per root step without an existing row
for the root key. -/
def setRevisionCreates (g : ProcessingGraph) (dataset revision : String) (priority : Priority)
    (q : Queue) : List JobInfo :=
  g.get_first_processing_steps.filterMap (fun step =>
    if (bestPendingJob (setRevisionRootRows g dataset q) step.name revision none none).isSome then
      none
    else some (mkRootJobInfo step dataset revision priority))

/-- The job ids `set_revision` keeps: the best existing row per root key. -/
def setRevisionKeptIds (g : ProcessingGraph) (dataset revision : String) (q : Queue) : List Nat :=
  g.get_first_processing_steps.filterMap (fun step =>
    (bestPendingJob (setRevisionRootRows g dataset q) step.name revision none none).map
      (fun j => j.job_id))

/-- The job ids `set_revision` deletes: the root rows it does not keep. -/
def setRevisionDeletes (g : ProcessingGraph) (dataset revision : String) (q : Queue) : List Nat :=
  ((setRevisionRootRows g dataset q).filter
      (fun j => !(setRevisionKeptIds g dataset revision q).contains j.job_id)).map
    (fun j => j.job_id)

/-- Modelled from the spec: `set_revision` of `libcommon/orchestrator.py` (not
in the sources), spec section 4.7: enqueue the graph's root dataset-input steps
for the revision, de-duplicating existing WAITING root jobs of the dataset
(keep the best row per root key, delete the other root rows, create a job for
every root without a row). -/
def setRevision (g : ProcessingGraph) (dataset revision : String) (priority : Priority)
    (q : Queue) (now : Nat) : Queue :=
  JobPlan.run ⟨setRevisionCreates g dataset revision priority q, setRevisionDeletes g dataset revision q⟩ q now

/-- The canonical artifact id `kind,dataset,revision[,config[,split]]`
(`Artifact.get_id` in `processing_graph.py`, spec section 3). -/
def artifactId (ty dataset revision : String) (cfg spl : Option String) : String :=
  ty ++ "," ++ dataset ++ "," ++ revision ++
    (match cfg with
     | none => ""
     | some c =>
         "," ++ c ++
           (match spl with
            | none => ""
            | some s => "," ++ s))

/-- The `CacheState` of the artifact `(kind, dataset, config, split)` read from
the store, as state assembly builds it from the cache rows of the dataset. -/
def cacheStateOf (cache : CacheStore) (kind dataset : String) (cfg spl : Option String)
    (jobRunnerVersion : Nat) : CacheState :=
  { dataset := dataset
    config := cfg
    split := spl
    cache_kind := kind
    cache_entries := (cache ⟨kind, dataset, cfg, spl⟩).toList.map CacheEntryData.toMetadata
    job_runner_version := jobRunnerVersion }

/-- The stored `failed_runs` of the artifact, zero when the row is missing
(used by the backfill difficulty rule, spec section 4.5). -/
def failedRunsOf (cache : CacheStore) (kind dataset : String) (cfg spl : Option String) : Nat :=
  match cache ⟨kind, dataset, cfg, spl⟩ with
  | none => 0
  | some e => e.failed_runs

/-- Modelled from the spec: the artifact coordinates of a step in the dataset
tree (spec section 4.4): one dataset-level artifact, one per discovered config
for a config step, one per discovered config and split for a split step. -/
def artifactCoordsForInput (it : InputType) (configNames : List String)
    (splitNamesOf : String → List String) : List (Option String × Option String) :=
  match it with
  | .dataset => [(none, none)]
  | .config => configNames.map (fun c => (some c, none))
  | .split => configNames.flatMap (fun c => (splitNamesOf c).map (fun s => (some c, some s)))

/-- Modelled from the spec: the coordinates of the parent artifacts of an
artifact at `(cfg, spl)`, for a parent step of the given input scope: a less or
equally specific parent projects the coordinates, a more specific parent
enumerates the discovered names below the artifact. -/
def parentCoords (parentInput : InputType) (cfg spl : Option String)
    (configNames : List String) (splitNamesOf : String → List String) :
    List (Option String × Option String) :=
  match parentInput with
  | .dataset => [(none, none)]
  | .config =>
      match cfg with
      | some c => [(some c, none)]
      | none => configNames.map (fun c => (some c, none))
  | .split =>
      match cfg, spl with
      | some c, some s => [(some c, some s)]
      | some c, none => (splitNamesOf c).map (fun s => (some c, some s))
      | none, _ => configNames.flatMap (fun c => (splitNamesOf c).map (fun s => (some c, some s)))

/-- Modelled from the spec: whether the artifact's cache row is older than the
cache row of some parent artifact (the `cache_is_outdated_by_parent` test,
spec section 4.4), using `CacheState.is_older_than` from `state.py`. -/
def olderThanAnyParent (g : ProcessingGraph) (cache : CacheStore) (dataset : String)
    (step : ProcessingStep) (cfg spl : Option String) (configNames : List String)
    (splitNamesOf : String → List String) : Bool :=
  let own := cacheStateOf cache step.name dataset cfg spl step.jobRunnerVersion
  step.triggeredBy.any (fun parentName =>
    match g.get_step? parentName with
    | none => false
    | some parent =>
        (parentCoords parent.inputType cfg spl configNames splitNamesOf).any (fun pc =>
          own.is_older_than
            (cacheStateOf cache parent.name dataset pc.1 pc.2 parent.jobRunnerVersion)))

/-- The classification of an artifact's cache state (spec section 4.4). -/
inductive CacheStatus where
  | upToDate
  | empty
  | differentGitRevision
  | outdatedByParent
  | jobRunnerObsolete
  | errorToRetry
deriving DecidableEq, Repr

/-- Modelled from the spec: the first-match classification of spec section 4.4,
built on the `CacheState` tests of `state.py`.  An artifact matching none of
the six listed cases (a non-retryable error at the current revision) needs no
job, so it falls back to `upToDate`. -/
def classifyArtifact (g : ProcessingGraph) (cache : CacheStore) (dataset revision : String)
    (step : ProcessingStep) (cfg spl : Option String) (configNames : List String)
    (splitNamesOf : String → List String) : CacheStatus :=
  let cs := cacheStateOf cache step.name dataset cfg spl step.jobRunnerVersion
  let older := olderThanAnyParent g cache dataset step cfg spl configNames splitNamesOf
  if cs.entry_exists && cs.is_success && !(cs.is_git_revision_different_from revision)
      && !cs.is_job_runner_obsolete && !older then
    .upToDate
  else if cs.is_empty then .empty
  else if cs.is_git_revision_different_from revision then .differentGitRevision
  else if older then .outdatedByParent
  else if cs.is_job_runner_obsolete then .jobRunnerObsolete
  else if cs.is_error_to_retry then .errorToRetry
  else .upToDate

/-- Modelled from the spec: the `DatasetBackfillPlan` of
`libcommon/orchestrator.py` (not in the sources), spec section 4.5: every
artifact of the dataset tree that is not up to date should have exactly one
pending job (keep the best existing row, else create a WAITING job with NORMAL
priority and the failed-runs difficulty bonus, without the big-dataset bonus);
every other pending row of the dataset is deleted. -/
def datasetBackfillPlan (g : ProcessingGraph) (dataset revision : String) (cache : CacheStore)
    (pending : List Job) : JobPlan :=
  let configNames := fetchNames cache dataset none DATASET_CONFIG_NAMES_KINDS "config_names"
  let splitNamesOf := fun c => fetchNames cache dataset (some c) CONFIG_SPLIT_NAMES_KINDS "splits"
  let artifacts :=
    g.steps.flatMap (fun step =>
      (artifactCoordsForInput step.inputType configNames splitNamesOf).map
        (fun p => (step, p.1, p.2)))
  let needsJob := fun (a : ProcessingStep × Option String × Option String) =>
    classifyArtifact g cache dataset revision a.1 a.2.1 a.2.2 configNames splitNamesOf ≠
      CacheStatus.upToDate
  let keptIds :=
    artifacts.filterMap (fun a =>
      if needsJob a then (bestPendingJob pending a.1.name revision a.2.1 a.2.2).map (fun j => j.job_id)
      else none)
  let creates :=
    artifacts.filterMap (fun a =>
      if needsJob a ∧ (bestPendingJob pending a.1.name revision a.2.1 a.2.2).isNone then
        some
          { type := a.1.name
            dataset := dataset
            revision := revision
            config := a.2.1
            split := a.2.2
            priority := Priority.normal
            difficulty :=
              min DEFAULT_DIFFICULTY_MAX
                (a.1.difficulty +
                  failedRunsOf cache a.1.name dataset a.2.1 a.2.2 *
                    DIFFICULTY_BONUS_BY_FAILED_RUNS) }
      else none)
  let deletes := (pending.filter (fun j => !keptIds.contains j.job_id)).map (fun j => j.job_id)
  ⟨creates, deletes⟩

/-- The production processing graph.  Modelled from the spec: the graph
specification lives in `libcommon/processing_graph.py` which is not in the
sources; the step names, input scopes and triggered-by edges are pinned by
`test_processing_graph.py` (`test_default_graph_steps` and
`test_default_graph_first_steps`). -/
def defaultGraph : ProcessingGraph :=
  { steps :=
      [ { name := "dataset-config-names", inputType := .dataset },
        { name := "config-split-names-from-streaming", inputType := .config,
          triggeredBy := ["dataset-config-names"] },
        { name := "config-split-names-from-info", inputType := .config,
          triggeredBy := ["config-info"] },
        { name := "config-parquet-and-info", inputType := .config,
          triggeredBy := ["dataset-config-names"] },
        { name := "config-parquet", inputType := .config,
          triggeredBy := ["config-parquet-and-info"] },
        { name := "config-parquet-metadata", inputType := .config,
          triggeredBy := ["config-parquet"] },
        { name := "dataset-parquet", inputType := .dataset,
          triggeredBy := ["dataset-config-names", "config-parquet"] },
        { name := "config-info", inputType := .config,
          triggeredBy := ["config-parquet-and-info"] },
        { name := "dataset-info", inputType := .dataset,
          triggeredBy := ["dataset-config-names", "config-info"] },
        { name := "config-size", inputType := .config,
          triggeredBy := ["config-parquet-and-info"] },
        { name := "dataset-size", inputType := .dataset,
          triggeredBy := ["dataset-config-names", "config-size"] },
        { name := "dataset-split-names", inputType := .dataset,
          triggeredBy :=
            ["dataset-config-names", "config-split-names-from-info",
              "config-split-names-from-streaming"] },
        { name := "split-first-rows-from-parquet", inputType := .split,
          triggeredBy := ["config-parquet-metadata"] },
        { name := "split-first-rows-from-streaming", inputType := .split,
          triggeredBy :=
            ["config-split-names-from-streaming", "config-split-names-from-info"] },
        { name := "split-image-url-columns", inputType := .split,
          triggeredBy :=
            ["split-first-rows-from-streaming", "split-first-rows-from-parquet"] },
        { name := "split-opt-in-out-urls-scan", inputType := .split,
          triggeredBy := ["split-image-url-columns"] },
        { name := "split-opt-in-out-urls-count", inputType := .split,
          triggeredBy := ["split-opt-in-out-urls-scan"] },
        { name := "config-opt-in-out-urls-count", inputType := .config,
          triggeredBy :=
            ["split-opt-in-out-urls-count", "config-split-names-from-info",
              "config-split-names-from-streaming"] },
        { name := "dataset-opt-in-out-urls-count", inputType := .dataset,
          triggeredBy := ["config-opt-in-out-urls-count", "dataset-config-names"] },
        { name := "split-duckdb-index", inputType := .split,
          triggeredBy :=
            ["config-split-names-from-info", "config-split-names-from-streaming",
              "config-parquet-metadata"] },
        { name := "config-duckdb-index-size", inputType := .config,
          triggeredBy := ["split-duckdb-index"] },
        { name := "dataset-duckdb-index-size", inputType := .dataset,
          triggeredBy := ["config-duckdb-index-size"] },
        { name := "split-descriptive-statistics", inputType := .split,
          triggeredBy :=
            ["config-split-names-from-info", "config-split-names-from-streaming"] },
        { name := "split-is-valid", inputType := .split,
          triggeredBy :=
            ["config-size", "split-first-rows-from-parquet",
              "split-first-rows-from-streaming", "split-duckdb-index"] },
        { name := "config-is-valid", inputType := .config,
          triggeredBy :=
            ["config-split-names-from-info", "config-split-names-from-streaming",
              "split-is-valid"] },
        { name := "dataset-is-valid", inputType := .dataset,
          triggeredBy := ["config-is-valid", "dataset-config-names"] },
        { name := "dataset-hub-cache", inputType := .dataset,
          triggeredBy := ["dataset-is-valid", "dataset-size"] } ] }

/-- Dataset-scoped root step DA of the small test graphs
(`tests/utils.py`, not in the sources; spec section 8 scenario 4). -/
def stepDA : ProcessingStep := { name := "dataset-a", inputType := .dataset }

/-- Dataset-scoped root step DB of the genealogy test graph. -/
def stepDB : ProcessingStep := { name := "dataset-b", inputType := .dataset }

/-- Dataset-scoped child step DG of DA in the parallel test graph. -/
def stepDG : ProcessingStep :=
  { name := "dataset-g", inputType := .dataset, triggeredBy := ["dataset-a"] }

/-- Dataset-scoped child step DH of DA in the parallel test graph. -/
def stepDH : ProcessingStep :=
  { name := "dataset-h", inputType := .dataset, triggeredBy := ["dataset-a"] }

/-- The parallel test graph: DG and DH are both children of DA, all
dataset-scoped (spec section 8 scenario 4). -/
def processingGraphParallel : ProcessingGraph := { steps := [stepDA, stepDG, stepDH] }

/-- The genealogy test graph: two roots DA and DB, a child DC of both and a
grandchild DD (only its roots matter here). -/
def processingGraphGenealogy : ProcessingGraph :=
  { steps :=
      [ stepDA, stepDB,
        { name := "dataset-c", inputType := .dataset, triggeredBy := ["dataset-a", "dataset-b"] },
        { name := "dataset-d", inputType := .dataset, triggeredBy := ["dataset-b", "dataset-c"] } ] }

/-- The config-level step with a bonus difficulty of 10, from
`test_after_job_plan_gives_bonus_difficulty`. -/
def configStepWithBonus : ProcessingStep :=
  { name := "config_step_with_bonus", inputType := .config,
    bonusDifficultyIfDatasetIsBig := 10, triggeredBy := ["config-info"] }

/-- The split-level step with a bonus difficulty of 10, from
`test_after_job_plan_gives_bonus_difficulty`. -/
def splitStepWithBonus : ProcessingStep :=
  { name := "split_step_with_bonus", inputType := .split,
    bonusDifficultyIfDatasetIsBig := 10, triggeredBy := ["config-info"] }

/-- The config-level split-names provider step, a child of the dataset root. -/
def csnfsStep : ProcessingStep :=
  { name := "config-split-names-from-streaming", inputType := .config,
    triggeredBy := ["dataset_step"] }

/-- The graph of `test_after_job_plan_gives_bonus_difficulty`: a dataset root,
two config-level name providers, and a config-level and a split-level step with
a bonus difficulty of 10, all triggered by `config-info`; the big-dataset
threshold is 1000 bytes. -/
def bonusGraph : ProcessingGraph :=
  { steps :=
      [ { name := "dataset_step", inputType := .dataset },
        csnfsStep,
        { name := "config-info", inputType := .config, triggeredBy := ["dataset_step"] },
        configStepWithBonus,
        splitStepWithBonus ],
    minBytesForBonusDifficulty := 1000 }

/-- The cache key of the DA artifact used by the failed-runs scenarios. -/
def daKey : CacheKey := ⟨"dataset-a", "dataset", none, none⟩

/-- One upsert of a DA result at a revision and status, as each `run_job` call
of `test_upsert_response_failed_runs` performs. -/
def upsertStepDA (store : CacheStore) (rev : String) (st : Nat) : CacheStore :=
  upsertResponse store daKey { content := {}, http_status := st, dataset_git_revision := rev } 0

/-- The stored `failed_runs` of the DA artifact. -/
def failedRunsAtDA (store : CacheStore) : Nat :=
  failedRunsOf store "dataset-a" "dataset" none none

/-- The `failed_runs` values observed after each upsert of a run sequence of
`(revision, http_status)` pairs, starting from the given store. -/
def trajectoryFrom : CacheStore → List (String × Nat) → List Nat
  | _, [] => []
  | store, (r, st) :: rest =>
      failedRunsAtDA (upsertStepDA store r st) :: trajectoryFrom (upsertStepDA store r st) rest

/-- The `failed_runs` trajectory of a run sequence starting from an empty cache. -/
def failedRunsTrajectory (seq : List (String × Nat)) : List Nat :=
  trajectoryFrom emptyCacheStore seq

/-- The failed-runs rule exactly as claim C1 and spec section 4.2 word it: the
counter increments only when the prior entry is itself an error
(`prior http_status ≥ 400`). -/
def failedRunsPerClaimC1 (prior : Option CacheEntryData) (newRevision : String)
    (newHttpStatus : Nat) : Nat :=
  match prior with
  | none => 0
  | some p =>
      if p.dataset_git_revision = newRevision ∧ 400 ≤ p.http_status ∧ 400 ≤ newHttpStatus then
        p.failed_runs + 1
      else 0

/-- The store holding one successful DA result at revision `"revision"`. -/
def daSuccessStore : CacheStore := upsertStepDA emptyCacheStore "revision" 200

/-- The cache row stored by `daSuccessStore`. -/
def daSuccessEntry : CacheEntryData :=
  { content := {}
    http_status := 200
    error_code := none
    job_runner_version := some 1
    dataset_git_revision := "revision"
    updated_at := 0
    progress := none
    failed_runs := 0 }

/-- The finished DA job of the after-job scenarios: a dataset-level job of type
`dataset-a` at revision `revision`, NORMAL priority. -/
def daFinished : JobInfo :=
  { type := "dataset-a", dataset := "dataset", revision := "revision", config := none,
    split := none, priority := .normal, difficulty := DEFAULT_DIFFICULTY }

/-- A job description for DG, used to seed the queue with duplicates. -/
def dgInfo : JobInfo :=
  { type := "dataset-g", dataset := "dataset", revision := "revision", config := none,
    split := none, priority := .normal, difficulty := DEFAULT_DIFFICULTY }

/-- The queue of `test_after_job_plan_delete`: two WAITING rows for DG, none
for DH. -/
def twoDGQueue : Queue := emptyQueue.createJobs [dgInfo, dgInfo] 0

/-- The after-job plan of `test_after_job_plan_delete`: DA finished on the
parallel graph against the two-DG queue. -/
def parallelDeletePlan : JobPlan :=
  afterJobPlan processingGraphParallel daFinished 0 emptyCacheStore
    (twoDGQueue.getPendingJobs "dataset")

/-- The backfill plan of `test_plan_job_creation_and_termination`: the
production graph, dataset `dataset` at revision `revision`, empty cache, empty
queue. -/
def emptyStateBackfillPlan : JobPlan :=
  datasetBackfillPlan defaultGraph "dataset" "revision" emptyCacheStore []

/-- The cache of `test_after_job_plan_gives_bonus_difficulty`: a
`config-split-names-from-streaming` entry discovering one split, and a
`config-info` entry whose `dataset_info.dataset_size` is 10000 when `big` and
10 otherwise (the threshold being 1000). -/
def bonusCache (big : Bool) : CacheStore :=
  upsertResponse
    (upsertResponse emptyCacheStore
      ⟨"config-split-names-from-streaming", "dataset_name", some "config_name", none⟩
      { content := { splits := some ["split_name"] }, http_status := 200,
        dataset_git_revision := "revision_hash" } 0)
    ⟨"config-info", "dataset_name", some "config_name", none⟩
    { content := { dataset_info_size := some (if big then 10000 else 10) }, http_status := 200,
      dataset_git_revision := "revision_hash" } 1

/-- The finished `config-info` job of the bonus-difficulty scenario. -/
def ciFinished : JobInfo :=
  { type := "config-info", dataset := "dataset_name", revision := "revision_hash",
    config := some "config_name", split := none, priority := .normal,
    difficulty := DEFAULT_DIFFICULTY }

/-- The config-level job the bonus scenario creates when the dataset is big and
three runs have failed: its difficulty is `min(100, 50 + 10 + 3 * 20) = 100`. -/
def bonusCreatedJob : JobInfo :=
  { type := "config_step_with_bonus", dataset := "dataset_name", revision := "revision_hash",
    config := some "config_name", split := none, priority := .normal, difficulty := 100 }

/-- The dataset-level root step named `dataset-config-names` of the safe-fan-out
scenario (its cache kind is the config-names discovery kind). -/
def dcnStep : ProcessingStep := { name := "dataset-config-names", inputType := .dataset }

/-- The config-level child of `dataset-config-names` in the safe-fan-out
scenario. -/
def configAStep : ProcessingStep :=
  { name := "config-a", inputType := .config, triggeredBy := ["dataset-config-names"] }

/-- A two-step graph for the safe-fan-out scenario: a config-level child of
`dataset-config-names`. -/
def fanGraph : ProcessingGraph := { steps := [dcnStep, configAStep] }

/-- The cache entry written by the finished `dataset-config-names` job of the
safe-fan-out scenario: a successful output whose content lacks the
`config_names` field. -/
def dcnMalformedEntry : UpsertInput :=
  { content := {}, http_status := 200, dataset_git_revision := "revision" }

/-- The cache of the safe-fan-out scenario: only the malformed
`dataset-config-names` output. -/
def dcnMalformedCache : CacheStore :=
  upsertResponse emptyCacheStore ⟨"dataset-config-names", "dataset", none, none⟩
    dcnMalformedEntry 0

/-- The finished `dataset-config-names` job of the safe-fan-out scenario. -/
def dcnFinished : JobInfo :=
  { type := "dataset-config-names", dataset := "dataset", revision := "revision", config := none,
    split := none, priority := .normal, difficulty := DEFAULT_DIFFICULTY }

/-- The split-level child of `config-split-names-from-streaming` in the
config-to-split safe-fan-out scenario. -/
def splitChildStep : ProcessingStep :=
  { name := "split-a", inputType := .split,
    triggeredBy := ["config-split-names-from-streaming"] }

/-- A graph for the config-to-split safe-fan-out scenario: a dataset root, the
split-names provider, and a split-level child of it. -/
def splitFanGraph : ProcessingGraph :=
  { steps := [{ name := "dataset_step", inputType := .dataset }, csnfsStep, splitChildStep] }

/-- The finished `config-split-names-from-streaming` job of the config-to-split
safe-fan-out scenario, at config `config1`. -/
def csnfsFinished : JobInfo :=
  { type := "config-split-names-from-streaming", dataset := "dataset", revision := "revision",
    config := some "config1", split := none, priority := .normal,
    difficulty := DEFAULT_DIFFICULTY }

/-- The cache row stored by `csnfsMalformedCache`: a successful output whose
content lacks the `splits` field. -/
def csnfsStoredEntry : CacheEntryData :=
  { content := {}
    http_status := 200
    error_code := none
    job_runner_version := some 1
    dataset_git_revision := "revision"
    updated_at := 0
    progress := none
    failed_runs := 0 }

/-- The cache of the config-to-split safe-fan-out scenario: only the malformed
`config-split-names-from-streaming` output at config `config1`. -/
def csnfsMalformedCache : CacheStore :=
  upsertResponse emptyCacheStore
    ⟨"config-split-names-from-streaming", "dataset", some "config1", none⟩
    { content := {}, http_status := 200, dataset_git_revision := "revision" } 0

/-- A root job description for DA, used to seed the queue with duplicates. -/
def daRootInfo : JobInfo :=
  { type := "dataset-a", dataset := "dataset", revision := "revision", config := none,
    split := none, priority := .normal, difficulty := DEFAULT_DIFFICULTY }

/-- The queue of `test_set_revision_handle_existing_jobs`: two WAITING rows for
the root DA. -/
def twoDAQueue : Queue := emptyQueue.createJobs [daRootInfo, daRootInfo] 0

/-- Whether a queue row is the WAITING root row of the given step for the given
dataset and revision. -/
def isRootRowOf (step : ProcessingStep) (dataset revision : String) (j : Job) : Bool :=
  j.type == step.name && j.dataset == dataset && j.revision == revision &&
    j.config == none && j.split == none && j.status == Status.waiting

/-- Whether a job description is the root description of the given step for the
given dataset and revision. -/
def isRootInfoOf (step : ProcessingStep) (dataset revision : String) (i : JobInfo) : Bool :=
  i.type == step.name && i.dataset == dataset && i.revision == revision &&
    i.config == none && i.split == none

/-- The cache row stored by `dcnMalformedCache`. -/
def dcnStoredEntry : CacheEntryData :=
  { content := {}
    http_status := 200
    error_code := none
    job_runner_version := some 1
    dataset_git_revision := "revision"
    updated_at := 0
    progress := none
    failed_runs := 0 }

/-- A `CacheState` with no rows, for the is-older-than witness. -/
def emptyDACacheState : CacheState :=
  { dataset := "dataset", config := none, split := none, cache_kind := "dataset-a",
    cache_entries := [], job_runner_version := 1 }

/-!  Theorems settling the claims, preceded by helper lemmas. -/

/-- Inserting into a list grows its length by one. -/
theorem insertSorted_length {α : Type} (le : α → α → Bool) (x : α) (l : List α) :
    (insertSorted le x l).length = l.length + 1 := by
  induction l with
  | nil => rfl
  | cons y ys ih =>
      simp only [insertSorted]
      split
      · rfl
      · simp [ih]

/-- Sorting preserves the length of the table. -/
theorem sortBy_length {α : Type} (le : α → α → Bool) (l : List α) :
    (sortBy le l).length = l.length := by
  induction l with
  | nil => rfl
  | cons y ys ih =>
      simp only [sortBy, List.foldr_cons] at *
      rw [insertSorted_length, ih]
      rfl

/-- Membership in an insertion step. -/
theorem mem_insertSorted {α : Type} (le : α → α → Bool) (x a : α) (l : List α) :
    a ∈ insertSorted le x l ↔ a = x ∨ a ∈ l := by
  induction l with
  | nil => simp [insertSorted]
  | cons y ys ih =>
      simp only [insertSorted]
      split
      · simp
      · simp only [List.mem_cons, ih]
        tauto

/-- Sorting preserves the members of the table. -/
theorem mem_sortBy {α : Type} (le : α → α → Bool) (a : α) (l : List α) :
    a ∈ sortBy le l ↔ a ∈ l := by
  induction l with
  | nil => simp [sortBy]
  | cons y ys ih =>
      simp only [sortBy, List.foldr_cons] at *
      simp [mem_insertSorted, ih]

/-- The stored DA failed-runs counter after one upsert is the computed value
from the prior row. -/
theorem failedRunsAtDA_upsert (store : CacheStore) (rev : String) (st : Nat) :
    failedRunsAtDA (upsertStepDA store rev st) = computeFailedRuns (store daKey) rev st := by
  simp [failedRunsAtDA, upsertStepDA, failedRunsOf, upsertResponse, daKey]

/-- Claim C7: `CacheState.is_error_to_retry` returns true iff a cache entry
exists, its `http_status` is at least 400, its `error_code` is a member of
`ERROR_CODES_TO_RETRY`, and its `failed_runs` is strictly below
`MAX_FAILED_RUNS`; in particular it returns false when the entry is missing,
when the counter is exhausted, or when the error code is not retryable. -/
theorem cache_is_error_to_retry_iff (s : CacheState) :
    s.is_error_to_retry = true ↔
      ∃ m, s.cache_entry_metadata = some m ∧ 400 ≤ m.http_status ∧
        (∃ c, m.error_code = some c ∧ c ∈ ERROR_CODES_TO_RETRY) ∧
        m.failed_runs < MAX_FAILED_RUNS := by
  unfold CacheState.is_error_to_retry
  cases h : s.cache_entry_metadata with
  | none => simp
  | some m =>
      cases hc : m.error_code with
      | none => simp [hc]
      | some c => simp [hc, and_assoc]

/-- Claim C9: `CacheState.is_older_than` returns false whenever either side has
no cache entry, so an artifact is never older than a parent that has never been
computed. -/
theorem is_older_than_requires_both_entries (a b : CacheState)
    (h : a.cache_entry_metadata = none ∨ b.cache_entry_metadata = none) :
    a.is_older_than b = false := by
  unfold CacheState.is_older_than
  rcases h with h | h
  · rw [h]
  · rw [h]
    cases a.cache_entry_metadata <;> rfl

/-- Witness for claim C9 at a concrete empty cache state. -/
theorem is_older_than_requires_both_entries_witness :
    CacheState.is_older_than emptyDACacheState emptyDACacheState = false :=
  is_older_than_requires_both_entries emptyDACacheState emptyDACacheState (Or.inl rfl)

/-- Claim C10: a `JobState`'s valid pending-jobs table (the first row after
sorting by status descending, priority descending, created_at ascending) has at
most one row, and `is_in_process` holds iff the pending-jobs table is
non-empty, for any mix of duplicate rows and statuses. -/
theorem job_state_valid_pending_spec (s : JobState) :
    s.valid_pending_jobs.length ≤ 1 ∧ (s.is_in_process = true ↔ s.pending_jobs ≠ []) := by
  have hlen : (sortBy jobSortLE s.pending_jobs).length = s.pending_jobs.length :=
    sortBy_length _ _
  have hsorted : sortBy jobSortLE s.pending_jobs = [] ↔ s.pending_jobs = [] := by
    constructor <;> intro hnil
    · rw [hnil] at hlen
      exact List.length_eq_zero.mp hlen.symm
    · rw [hnil]
      rfl
  constructor
  · unfold JobState.valid_pending_jobs
    rw [List.length_take]
    exact min_le_left 1 _
  · unfold JobState.is_in_process JobState.valid_pending_jobs
    constructor
    · intro hp hnil
      rw [hsorted.mpr hnil] at hp
      simp at hp
    · intro hne
      cases hm : sortBy jobSortLE s.pending_jobs with
      | nil => exact absurd (hsorted.mp hm) hne
      | cons x xs => simp [hm]

/-- Claim C1 (amended): the upsert stores
`failed_runs = prior.failed_runs + 1` exactly when a prior entry exists for the
key, its `dataset_git_revision` equals the new one, and the new `http_status`
is at least 400 (regardless of the prior entry's status); in every other case
(no prior entry, different revision, or new success) it stores 0. -/
theorem upsert_failed_runs_rule (store : CacheStore) (key : CacheKey) (input : UpsertInput)
    (now : Nat) :
    (upsertResponse store key input now key).map (fun e => e.failed_runs) =
      some
        (match store key with
         | none => 0
         | some p =>
             if p.dataset_git_revision = input.dataset_git_revision ∧ 400 ≤ input.http_status then
               p.failed_runs + 1
             else 0) := by
  unfold upsertResponse
  rw [if_pos rfl]
  cases h : store key <;> simp [computeFailedRuns, h]

/-- Counterexample to claim C1 as stated: upserting an error (status 500) at
the same revision over a prior successful entry stores `failed_runs = 1`,
whereas the claim's rule (which also requires the prior entry's status to be at
least 400) yields 0 for this input. -/
theorem upsert_failed_runs_claim_counterexample :
    failedRunsAtDA (upsertStepDA daSuccessStore "revision" 500) = 1 ∧
    daSuccessStore daKey = some daSuccessEntry ∧
    daSuccessEntry.http_status < 400 ∧
    failedRunsPerClaimC1 (daSuccessStore daKey) "revision" 500 = 0 := by
  refine ⟨?_, ?_, ?_, ?_⟩ <;> decide

/-- Claim C2: a success (status below 400) resets `failed_runs` to 0, an upsert
at a revision different from the prior entry's resets it to 0, a failure at the
prior entry's revision stores `prior.failed_runs + 1` (so consecutive
same-revision failures strictly increase the counter), and the run sequence
(r,OK),(r,500),(r,500),(r2,500),(r2,OK) from an empty cache yields the
trajectory 0,1,2,0,0. -/
theorem failed_runs_dynamics :
    (∀ (store : CacheStore) (rev : String) (st : Nat), st < 400 →
        failedRunsAtDA (upsertStepDA store rev st) = 0) ∧
    (∀ (store : CacheStore) (p : CacheEntryData) (rev : String) (st : Nat),
        store daKey = some p → p.dataset_git_revision ≠ rev →
        failedRunsAtDA (upsertStepDA store rev st) = 0) ∧
    (∀ (store : CacheStore) (p : CacheEntryData) (rev : String) (st : Nat),
        store daKey = some p → p.dataset_git_revision = rev → 400 ≤ st →
        failedRunsAtDA (upsertStepDA store rev st) = p.failed_runs + 1) ∧
    failedRunsTrajectory [("r", 200), ("r", 500), ("r", 500), ("r2", 500), ("r2", 200)] =
      [0, 1, 2, 0, 0] := by
  refine ⟨?_, ?_, ?_, by decide⟩
  · intro store rev st hst
    rw [failedRunsAtDA_upsert]
    cases h : store daKey with
    | none => rfl
    | some p =>
        simp only [computeFailedRuns]
        rw [if_neg (by rintro ⟨-, h400⟩; omega)]
  · intro store p rev st hp hrev
    rw [failedRunsAtDA_upsert, hp]
    simp only [computeFailedRuns]
    rw [if_neg (fun hc => hrev hc.1)]
  · intro store p rev st hp hrev hst
    rw [failedRunsAtDA_upsert, hp]
    simp only [computeFailedRuns]
    rw [if_pos ⟨hrev, hst⟩]

/-- Witness for claim C2 at concrete inputs: a success over a prior success, a
revision change, and a same-revision failure over the prior success entry whose
counter is 0. -/
theorem failed_runs_dynamics_witness :
    failedRunsAtDA (upsertStepDA daSuccessStore "revision" 200) = 0 ∧
    failedRunsAtDA (upsertStepDA daSuccessStore "other" 500) = 0 ∧
    failedRunsAtDA (upsertStepDA daSuccessStore "revision" 500) = daSuccessEntry.failed_runs + 1 :=
  ⟨failed_runs_dynamics.1 daSuccessStore "revision" 200 (by decide),
   failed_runs_dynamics.2.1 daSuccessStore daSuccessEntry "other" 500 (by decide) (by decide),
   failed_runs_dynamics.2.2.1 daSuccessStore daSuccessEntry "revision" 500 (by decide) rfl
     (by decide)⟩

/-- Claim C3: on the production graph with an empty cache and an empty queue,
the backfill plan is exactly one CreateJobs task for the 9 dataset-level
artifacts (including dataset-config-names), with no DeleteJobs task and no
config- or split-level jobs. -/
theorem backfill_empty_production_graph :
    emptyStateBackfillPlan.asResponse = ["CreateJobs,9"] ∧
    emptyStateBackfillPlan.jobInfosToCreate.map
        (fun j => artifactId j.type j.dataset j.revision j.config j.split) =
      ["dataset-config-names,dataset,revision",
       "dataset-parquet,dataset,revision",
       "dataset-info,dataset,revision",
       "dataset-size,dataset,revision",
       "dataset-split-names,dataset,revision",
       "dataset-opt-in-out-urls-count,dataset,revision",
       "dataset-duckdb-index-size,dataset,revision",
       "dataset-is-valid,dataset,revision",
       "dataset-hub-cache,dataset,revision"] ∧
    emptyStateBackfillPlan.jobInfosToCreate.all (fun j => j.config == none && j.split == none) =
      true ∧
    emptyStateBackfillPlan.jobIdsToDelete = [] := by
  refine ⟨?_, ?_, ?_, ?_⟩ <;> decide

/-- Claim C4: on the parallel graph (DG and DH children of DA) with two
pre-existing WAITING rows for DG and none for DH, the after-job plan of a
finished DA job is exactly CreateJobs,1 then DeleteJobs,1, and running it
leaves exactly one pending WAITING row for DG and one for DH. -/
theorem after_job_plan_parallel_dedup :
    parallelDeletePlan.asResponse = ["CreateJobs,1", "DeleteJobs,1"] ∧
    (parallelDeletePlan.run twoDGQueue 1).jobs.map (fun j => (j.type, j.status)) =
      [("dataset-g", Status.waiting), ("dataset-h", Status.waiting)] := by
  constructor <;> decide

/-- A successful `bestPendingJob` lookup returns a member of the table whose
key fields match the requested key. -/
theorem bestPendingJob_mem (jobs : List Job) (ty rev : String) (cfg spl : Option String) (b : Job)
    (h : bestPendingJob jobs ty rev cfg spl = some b) :
    b ∈ jobs ∧ b.type = ty ∧ b.revision = rev ∧ b.config = cfg ∧ b.split = spl := by
  unfold bestPendingJob at h
  have hmem : b ∈ sortBy jobSortLE
      (jobs.filter (fun j =>
        j.type == ty && j.revision == rev && j.config == cfg && j.split == spl)) := by
    cases hs : sortBy jobSortLE
        (jobs.filter (fun j =>
          j.type == ty && j.revision == rev && j.config == cfg && j.split == spl)) with
    | nil => rw [hs] at h; cases h
    | cons x xs =>
        rw [hs] at h
        cases h
        exact List.mem_cons_self _ _
  rw [mem_sortBy] at hmem
  have hfil := List.mem_filter.mp hmem
  have hpred := hfil.2
  simp only [Bool.and_eq_true, beq_iff_eq] at hpred
  exact ⟨hfil.1, hpred.1.1.1, hpred.1.1.2, hpred.1.2, hpred.2⟩

/-- Claim C5: every child job created by the after-job planner has difficulty
`min(DEFAULT_DIFFICULTY_MAX, child.difficulty + (bonus if the dataset is big) +
failed_runs * DIFFICULTY_BONUS_BY_FAILED_RUNS)`, where the dataset is big iff
the currently-cached `config-info` aggregate reports a `dataset_size` of at
least the graph's threshold; this holds for every `failed_runs` and both
bigness values. -/
theorem after_job_plan_difficulty (g : ProcessingGraph) (finished : JobInfo)
    (failedRuns : Nat) (cache : CacheStore) (pending : List Job) (job : JobInfo)
    (child : ProcessingStep) (hchild : child ∈ g.steps)
    (hnodup : (g.steps.map (fun s => s.name)).Nodup)
    (hjob : job ∈ (afterJobPlan g finished failedRuns cache pending).jobInfosToCreate)
    (hname : job.type = child.name) :
    job.difficulty =
      min DEFAULT_DIFFICULTY_MAX
        (child.difficulty +
          (if datasetIsBig cache finished.dataset finished.config g.minBytesForBonusDifficulty
           then child.bonusDifficultyIfDatasetIsBig else 0) +
          failedRuns * DIFFICULTY_BONUS_BY_FAILED_RUNS) := by
  unfold afterJobPlan at hjob
  cases hstep : g.get_step? finished.type with
  | none =>
      rw [hstep] at hjob
      simp at hjob
  | some step =>
      rw [hstep] at hjob
      simp only [List.mem_filterMap] at hjob
      obtain ⟨t, ht, hsome⟩ := hjob
      by_cases hb :
          (bestPendingJob (afterJobRelevant g step finished pending) t.1.name finished.revision
            t.2.1 t.2.2).isSome
      · rw [if_pos hb] at hsome
        cases hsome
      · rw [if_neg hb] at hsome
        have hjob2 : job = mkChildJobInfo finished failedRuns
            (datasetIsBig cache finished.dataset finished.config g.minBytesForBonusDifficulty)
            t := (Option.some.inj hsome).symm
        have ht1 : t.1 ∈ g.get_children step.name := by
          unfold afterJobTargets at ht
          simp only [List.mem_flatMap, List.mem_map] at ht
          obtain ⟨c, hc, p, hp, hpt⟩ := ht
          rw [← hpt]
          exact hc
        have hsteps : t.1 ∈ g.steps := List.mem_of_mem_filter ht1
        rw [hjob2] at hname
        simp only [mkChildJobInfo] at hname
        have heq : t.1 = child := List.inj_on_of_nodup_map hnodup hsteps hchild hname
        rw [hjob2]
        simp only [mkChildJobInfo]
        rw [heq]

/-- Witness for claim C5: in the bonus scenario (big dataset, three failed
runs), the created config-level job's difficulty obeys the formula, which
evaluates to `min(100, 50 + 10 + 3 * 20) = 100`. -/
theorem after_job_plan_difficulty_witness :
    bonusCreatedJob.difficulty =
      min DEFAULT_DIFFICULTY_MAX
        (configStepWithBonus.difficulty +
          (if datasetIsBig (bonusCache true) ciFinished.dataset ciFinished.config
              bonusGraph.minBytesForBonusDifficulty
           then configStepWithBonus.bonusDifficultyIfDatasetIsBig else 0) +
          3 * DIFFICULTY_BONUS_BY_FAILED_RUNS) :=
  after_job_plan_difficulty bonusGraph ciFinished 3 (bonusCache true) [] bonusCreatedJob
    configStepWithBonus (by decide) (by decide) (by decide) rfl

/-- The running best-error accumulator only ever holds an entry from the list
or the initial accumulator. -/
theorem foldl_betterError_mem (l : List CacheEntryData) :
    ∀ (acc : Option CacheEntryData) (b : CacheEntryData),
      l.foldl betterError acc = some b → acc = some b ∨ b ∈ l := by
  induction l with
  | nil =>
      intro acc b h
      exact Or.inl h
  | cons e l ih =>
      intro acc b h
      rcases ih (betterError acc e) b h with hacc | hmem
      · cases acc with
        | none =>
            have hacc2 : some e = some b := hacc
            cases hacc2
            exact Or.inr (List.mem_cons_self _ _)
        | some bb =>
            have hacc2 : (if bb.http_status < e.http_status then some e else some bb) = some b :=
              hacc
            by_cases hlt : bb.http_status < e.http_status
            · rw [if_pos hlt] at hacc2
              cases hacc2
              exact Or.inr (List.mem_cons_self _ _)
            · rw [if_neg hlt] at hacc2
              exact Or.inl hacc2
      · exact Or.inr (List.mem_cons_of_mem e hmem)

/-- A returned best response is a cache row at one of the requested kinds. -/
theorem getBestResponse_mem (cache : CacheStore) (kinds : List String) (dataset : String)
    (config : Option String) (e : CacheEntryData)
    (h : getBestResponse cache kinds dataset config = some e) :
    ∃ kind ∈ kinds, cache ⟨kind, dataset, config, none⟩ = some e := by
  unfold getBestResponse at h
  have hmem : e ∈ bestEntries cache kinds dataset config := by
    cases hf : (bestEntries cache kinds dataset config).find?
        (fun x => x.http_status < 400) with
    | some x =>
        rw [hf] at h
        have h2 : some x = some e := h
        cases h2
        exact List.mem_of_find?_eq_some hf
    | none =>
        rw [hf] at h
        have h2 : (bestEntries cache kinds dataset config).foldl betterError none = some e := h
        rcases foldl_betterError_mem _ none e h2 with habs | hmem
        · cases habs
        · exact hmem
  unfold bestEntries at hmem
  exact List.mem_filterMap.mp hmem

/-- When every cache row at the requested kinds lacks the names field,
`fetch_names` returns the empty list (its error fallback). -/
theorem fetchNames_nil_of_missing (cache : CacheStore) (dataset : String) (config : Option String)
    (kinds : List String) (namesField : String)
    (h : ∀ kind ∈ kinds, ∀ e, cache ⟨kind, dataset, config, none⟩ = some e →
        e.content.names namesField = none) :
    fetchNames cache dataset config kinds namesField = [] := by
  unfold fetchNames
  cases hb : getBestResponse cache kinds dataset config with
  | none => rfl
  | some e =>
      obtain ⟨kind, hk, hc⟩ := getBestResponse_mem cache kinds dataset config e hb
      show dedupFirst ((e.content.names namesField).getD []) = []
      rw [h kind hk e hc]
      rfl

/-- Claim C8: when the after-job planner processes a finished job that has a
child whose input scope is more specific than the finished step's
(dataset-to-config or config-to-split), and the discovery rows for the child's
level — in particular the finished job's newly written cache output — lack the
expected names field (`config_names` or `splits`), the planner creates no jobs
for that child and raises no error: the plan is computed normally with an empty
fan-out. -/
theorem after_job_plan_safe_fanout (g : ProcessingGraph) (finished : JobInfo)
    (failedRuns : Nat) (cache : CacheStore) (pending : List Job) (step child : ProcessingStep)
    (hstep : g.get_step? finished.type = some step)
    (hchild : child ∈ g.get_children step.name)
    (hnodup : (g.steps.map (fun s => s.name)).Nodup)
    (hfan :
      (step.inputType = .dataset ∧ child.inputType = .config ∧
        ∀ kind ∈ DATASET_CONFIG_NAMES_KINDS, ∀ e,
          cache ⟨kind, finished.dataset, none, none⟩ = some e →
            e.content.config_names = none) ∨
      (step.inputType = .config ∧ child.inputType = .split ∧
        ∀ kind ∈ CONFIG_SPLIT_NAMES_KINDS, ∀ e,
          cache ⟨kind, finished.dataset, finished.config, none⟩ = some e →
            e.content.splits = none)) :
    ((afterJobPlan g finished failedRuns cache pending).jobInfosToCreate.filter
        (fun j => j.type == child.name)) = [] := by
  rw [List.filter_eq_nil_iff]
  intro job hjob hbeq
  have hjty : job.type = child.name := by simpa using hbeq
  unfold afterJobPlan at hjob
  rw [hstep] at hjob
  simp only [List.mem_filterMap] at hjob
  obtain ⟨t, ht, hsome⟩ := hjob
  by_cases hb :
      (bestPendingJob (afterJobRelevant g step finished pending) t.1.name finished.revision
        t.2.1 t.2.2).isSome
  · rw [if_pos hb] at hsome
    cases hsome
  · rw [if_neg hb] at hsome
    have hjob2 : job = mkChildJobInfo finished failedRuns
        (datasetIsBig cache finished.dataset finished.config g.minBytesForBonusDifficulty)
        t := (Option.some.inj hsome).symm
    unfold afterJobTargets at ht
    simp only [List.mem_flatMap, List.mem_map] at ht
    obtain ⟨c, hc, p, hp, hpt⟩ := ht
    have ht1 : t.1 = c := by rw [← hpt]
    have hcname : c.name = child.name := by
      rw [hjob2] at hjty
      simp only [mkChildJobInfo] at hjty
      rw [ht1] at hjty
      exact hjty
    have hceq : c = child :=
      List.inj_on_of_nodup_map hnodup (List.mem_of_mem_filter hc)
        (List.mem_of_mem_filter hchild) hcname
    rcases hfan with ⟨hds, hci, hmiss⟩ | ⟨hcs, hci, hmiss⟩
    · have hnames :
          fetchNames cache finished.dataset none DATASET_CONFIG_NAMES_KINDS "config_names" =
            [] :=
        fetchNames_nil_of_missing _ _ _ _ _
          (fun kind hk e he => by
            rw [show e.content.names "config_names" = e.content.config_names from rfl]
            exact hmiss kind hk e he)
      rw [hceq, hci, hds] at hp
      simp only [childTargets] at hp
      rw [hnames] at hp
      simp at hp
    · have hnames :
          fetchNames cache finished.dataset finished.config CONFIG_SPLIT_NAMES_KINDS
            "splits" = [] :=
        fetchNames_nil_of_missing _ _ _ _ _
          (fun kind hk e he => by
            rw [show e.content.names "splits" = e.content.splits from rfl]
            exact hmiss kind hk e he)
      rw [hceq, hci, hcs] at hp
      simp only [childTargets] at hp
      rw [hnames] at hp
      simp at hp

/-- Witness for claim C8, exercising both fan-out directions: the finished
`dataset-config-names` job whose output lacks `config_names` creates no jobs
for its config-level child, and the finished
`config-split-names-from-streaming` job whose output lacks `splits` creates no
jobs for its split-level child. -/
theorem after_job_plan_safe_fanout_witness :
    ((afterJobPlan fanGraph dcnFinished 0 dcnMalformedCache []).jobInfosToCreate.filter
        (fun j => j.type == configAStep.name)) = [] ∧
    ((afterJobPlan splitFanGraph csnfsFinished 0 csnfsMalformedCache []).jobInfosToCreate.filter
        (fun j => j.type == splitChildStep.name)) = [] :=
  ⟨after_job_plan_safe_fanout fanGraph dcnFinished 0 dcnMalformedCache [] dcnStep configAStep
      (by decide) (by decide) (by decide)
      (Or.inl ⟨rfl, rfl, by
        intro kind hk e he
        simp only [DATASET_CONFIG_NAMES_KINDS, List.mem_singleton] at hk
        subst hk
        have hrow : dcnMalformedCache ⟨"dataset-config-names", dcnFinished.dataset, none, none⟩ =
            some dcnStoredEntry := rfl
        rw [hrow] at he
        cases he
        rfl⟩),
   after_job_plan_safe_fanout splitFanGraph csnfsFinished 0 csnfsMalformedCache [] csnfsStep
      splitChildStep (by decide) (by decide) (by decide)
      (Or.inr ⟨rfl, rfl, by
        intro kind hk e he
        simp only [CONFIG_SPLIT_NAMES_KINDS, List.mem_cons, List.mem_singleton,
          List.not_mem_nil, or_false] at hk
        rcases hk with rfl | rfl
        · have hrow : csnfsMalformedCache
              ⟨"config-split-names-from-streaming", csnfsFinished.dataset,
                csnfsFinished.config, none⟩ = some csnfsStoredEntry := rfl
          rw [hrow] at he
          cases he
          rfl
        · have hrow : csnfsMalformedCache
              ⟨"config-split-names-from-info", csnfsFinished.dataset, csnfsFinished.config,
                none⟩ = (none : Option CacheEntryData) := rfl
          rw [hrow] at he
          cases he⟩)⟩

/-- `createJobs` appends exactly the rows of `createdRows`. -/
theorem createJobs_jobs (infos : List JobInfo) : ∀ (q : Queue) (now : Nat),
    (q.createJobs infos now).jobs = q.jobs ++ createdRows q.nextId infos now := by
  induction infos with
  | nil =>
      intro q now
      simp [Queue.createJobs, createdRows]
  | cons info rest ih =>
      intro q now
      have hstep : q.createJobs (info :: rest) now =
          Queue.createJobs ⟨q.jobs ++ [mkWaitingRow q.nextId info now], q.nextId + 1⟩ rest now :=
        rfl
      rw [hstep, ih]
      simp [createdRows]

/-- Counting created rows by a row predicate that only inspects the description. -/
theorem countP_createdRows (p : Job → Bool) (pI : JobInfo → Bool) (now : Nat)
    (h : ∀ id info, p (mkWaitingRow id info now) = pI info) :
    ∀ (startId : Nat) (infos : List JobInfo),
      (createdRows startId infos now).countP p = infos.countP pI := by
  intro startId infos
  induction infos generalizing startId with
  | nil => rfl
  | cons info rest ih =>
      simp [createdRows, List.countP_cons, h, ih]

/-- A created row is a root row iff its description is a root description. -/
theorem isRootRowOf_mkWaitingRow (step : ProcessingStep) (dataset revision : String)
    (id : Nat) (info : JobInfo) (now : Nat) :
    isRootRowOf step dataset revision (mkWaitingRow id info now) =
      isRootInfoOf step dataset revision info := by
  simp [isRootRowOf, isRootInfoOf, mkWaitingRow]

/-- Every created row comes from some description at some id. -/
theorem mem_createdRows (now : Nat) : ∀ (startId : Nat) (infos : List JobInfo) (j : Job),
    j ∈ createdRows startId infos now → ∃ id info, info ∈ infos ∧ j = mkWaitingRow id info now := by
  intro startId infos
  induction infos generalizing startId with
  | nil =>
      intro j h
      cases h
  | cons info rest ih =>
      intro j h
      rcases List.mem_cons.mp h with rfl | h2
      · exact ⟨startId, info, List.mem_cons_self _ _, rfl⟩
      · obtain ⟨id, info2, hmem, hj⟩ := ih (startId + 1) j h2
        exact ⟨id, info2, List.mem_cons_of_mem _ hmem, hj⟩

/-- The root descriptions created for a list of steps none of which is named
like `s` contain no root description of `s`. -/
theorem countP_rootCreates_zero (s : ProcessingStep) (d r : String) (pr : Priority)
    (best : ProcessingStep → Option Job) :
    ∀ (l : List ProcessingStep), s.name ∉ l.map (fun x => x.name) →
      ((l.filterMap (fun step =>
          if (best step).isSome then none else some (mkRootJobInfo step d r pr))).countP
        (isRootInfoOf s d r)) = 0 := by
  intro l
  induction l with
  | nil => intro _; rfl
  | cons x xs ih =>
      intro h
      simp only [List.map_cons, List.mem_cons] at h
      push_neg at h
      simp only [List.filterMap_cons]
      by_cases hb : (best x).isSome
      · rw [if_pos hb]
        exact ih h.2
      · rw [if_neg hb, List.countP_cons, ih h.2]
        have hfalse : isRootInfoOf s d r (mkRootJobInfo x d r pr) = false := by
          simp only [isRootInfoOf, mkRootJobInfo, Bool.and_eq_false_iff]
          left
          left
          left
          left
          simp [beq_eq_false_iff_ne]
          exact fun hx => h.1 hx.symm
        rw [hfalse]
        rfl

/-- Counting the root descriptions created for a nodup-named list of steps
containing `s`: one when `s` has no existing best row, zero otherwise. -/
theorem countP_rootCreates (s : ProcessingStep) (d r : String) (pr : Priority)
    (best : ProcessingStep → Option Job) :
    ∀ (l : List ProcessingStep), (l.map (fun x => x.name)).Nodup → s ∈ l →
      ((l.filterMap (fun step =>
          if (best step).isSome then none else some (mkRootJobInfo step d r pr))).countP
        (isRootInfoOf s d r)) = (if (best s).isSome then 0 else 1) := by
  intro l
  induction l with
  | nil =>
      intro _ h
      cases h
  | cons x xs ih =>
      intro hnodup hs
      simp only [List.map_cons, List.nodup_cons] at hnodup
      rcases List.mem_cons.mp hs with rfl | hs2
      · simp only [List.filterMap_cons]
        by_cases hb : (best s).isSome
        · rw [if_pos hb, if_pos hb]
          exact countP_rootCreates_zero s d r pr best xs hnodup.1
        · rw [if_neg hb, if_neg hb, List.countP_cons,
            countP_rootCreates_zero s d r pr best xs hnodup.1]
          have htrue : isRootInfoOf s d r (mkRootJobInfo s d r pr) = true := by
            simp [isRootInfoOf, mkRootJobInfo]
          rw [htrue]
          rfl
      · have hxname : isRootInfoOf s d r (mkRootJobInfo x d r pr) = false := by
          have hne : x.name ≠ s.name := by
            intro hx
            exact hnodup.1 (hx ▸ List.mem_map_of_mem (fun t => t.name) hs2)
          simp only [isRootInfoOf, mkRootJobInfo, Bool.and_eq_false_iff]
          left
          left
          left
          left
          simp [beq_eq_false_iff_ne]
          exact hne
        simp only [List.filterMap_cons]
        by_cases hb : (best x).isSome
        · rw [if_pos hb]
          exact ih hnodup.2 hs2
        · rw [if_neg hb, List.countP_cons, ih hnodup.2 hs2, hxname]
          rfl

/-- Claim C6: `set_revision` enqueues exactly one WAITING job per root
(no-parent, dataset-input) step of the graph and nothing else; this holds both
starting from an empty queue and when duplicate WAITING root jobs for the
dataset already exist, in which case the duplicates are de-duplicated so that
exactly one pending job per root artifact remains. -/
theorem set_revision_one_per_root (g : ProcessingGraph) (dataset revision : String)
    (priority : Priority) (q : Queue) (now : Nat)
    (hnodup : (g.get_first_processing_steps.map (fun s => s.name)).Nodup)
    (hid : (q.jobs.map (fun j => j.job_id)).Nodup)
    (hq : ∀ j ∈ q.jobs, ∃ step ∈ g.get_first_processing_steps,
        isRootRowOf step dataset revision j = true) :
    ((g.get_first_processing_steps).all (fun step =>
        (setRevision g dataset revision priority q now).jobs.countP
            (isRootRowOf step dataset revision) == 1)) = true ∧
    ((setRevision g dataset revision priority q now).jobs.all (fun j =>
        g.get_first_processing_steps.any (fun step =>
          isRootRowOf step dataset revision j))) = true := by
  have hrows : setRevisionRootRows g dataset q = q.jobs := by
    unfold setRevisionRootRows
    apply List.filter_eq_self.mpr
    intro j hj
    obtain ⟨step, hstep, hrow⟩ := hq j hj
    simp only [isRootRowOf, Bool.and_eq_true, beq_iff_eq] at hrow
    simp only [Bool.and_eq_true, beq_iff_eq]
    refine ⟨hrow.1.1.1.1.2, List.elem_iff.mpr ?_⟩
    rw [hrow.1.1.1.1.1]
    exact List.mem_map_of_mem (fun s => s.name) hstep
  have hbest : ∀ (step : ProcessingStep) (b : Job),
      bestPendingJob q.jobs step.name revision none none = some b →
      b ∈ q.jobs ∧ b.type = step.name ∧ b.revision = revision ∧ b.config = none ∧
        b.split = none :=
    fun step b h => bestPendingJob_mem q.jobs step.name revision none none b h
  have hinj : ∀ a ∈ q.jobs, ∀ b ∈ q.jobs, a.job_id = b.job_id → a = b :=
    fun a ha b hb hab => List.inj_on_of_nodup_map hid ha hb hab
  have hrinj : ∀ a ∈ g.get_first_processing_steps, ∀ b ∈ g.get_first_processing_steps,
      a.name = b.name → a = b :=
    fun a ha b hb hab => List.inj_on_of_nodup_map hnodup ha hb hab
  have hK : setRevisionKeptIds g dataset revision q =
      g.get_first_processing_steps.filterMap (fun step =>
        (bestPendingJob q.jobs step.name revision none none).map (fun j => j.job_id)) := by
    unfold setRevisionKeptIds
    rw [hrows]
  have hKmem : ∀ i, (setRevisionKeptIds g dataset revision q).contains i = true ↔
      ∃ step ∈ g.get_first_processing_steps, ∃ b,
        bestPendingJob q.jobs step.name revision none none = some b ∧ b.job_id = i := by
    intro i
    rw [hK, List.elem_iff, List.mem_filterMap]
    constructor
    · rintro ⟨step, hstep, hmap⟩
      rw [Option.map_eq_some'] at hmap
      obtain ⟨b, hb, hbi⟩ := hmap
      exact ⟨step, hstep, b, hb, hbi⟩
    · rintro ⟨step, hstep, b, hb, hbi⟩
      refine ⟨step, hstep, ?_⟩
      rw [hb]
      simpa using hbi
  have hsurv : ∀ j ∈ q.jobs,
      (!(setRevisionDeletes g dataset revision q).contains j.job_id) =
        (setRevisionKeptIds g dataset revision q).contains j.job_id := by
    intro j hj
    unfold setRevisionDeletes
    rw [hrows]
    cases hk : (setRevisionKeptIds g dataset revision q).contains j.job_id with
    | true =>
        have hnc : ((q.jobs.filter (fun x =>
            !(setRevisionKeptIds g dataset revision q).contains x.job_id)).map
              (fun x => x.job_id)).contains j.job_id = false := by
          rw [Bool.eq_false_iff]
          intro hc
          rw [List.elem_iff, List.mem_map] at hc
          obtain ⟨j2, hj2, hj2id⟩ := hc
          have hj2f := List.mem_filter.mp hj2
          have hj2j : j2 = j := hinj j2 hj2f.1 j hj hj2id
          have hfalse := hj2f.2
          rw [hj2j, hk] at hfalse
          simp at hfalse
        rw [hnc]
        rfl
    | false =>
        have hc : ((q.jobs.filter (fun x =>
            !(setRevisionKeptIds g dataset revision q).contains x.job_id)).map
              (fun x => x.job_id)).contains j.job_id = true := by
          rw [List.elem_iff, List.mem_map]
          refine ⟨j, List.mem_filter.mpr ⟨hj, ?_⟩, rfl⟩
          rw [hk]
          rfl
        rw [hc]
        rfl
  have hresult : (setRevision g dataset revision priority q now).jobs =
      q.jobs.filter (fun j => !(setRevisionDeletes g dataset revision q).contains j.job_id) ++
        createdRows q.nextId (setRevisionCreates g dataset revision priority q) now := by
    show ((q.deleteJobsByIds (setRevisionDeletes g dataset revision q)).createJobs
        (setRevisionCreates g dataset revision priority q) now).jobs = _
    rw [createJobs_jobs]
    rfl
  have hcreates : setRevisionCreates g dataset revision priority q =
      g.get_first_processing_steps.filterMap (fun step =>
        if (bestPendingJob q.jobs step.name revision none none).isSome then none
        else some (mkRootJobInfo step dataset revision priority)) := by
    unfold setRevisionCreates
    rw [hrows]
  constructor
  · rw [List.all_eq_true]
    intro step hstep
    simp only [beq_iff_eq]
    rw [hresult, List.countP_append, List.countP_filter]
    have hA : (createdRows q.nextId (setRevisionCreates g dataset revision priority q)
          now).countP (isRootRowOf step dataset revision) =
        if (bestPendingJob q.jobs step.name revision none none).isSome then 0 else 1 := by
      rw [countP_createdRows (isRootRowOf step dataset revision)
        (isRootInfoOf step dataset revision) now
        (fun id info => isRootRowOf_mkWaitingRow step dataset revision id info now)]
      rw [hcreates]
      exact countP_rootCreates step dataset revision priority
        (fun st => bestPendingJob q.jobs st.name revision none none)
        g.get_first_processing_steps hnodup hstep
    cases hbs : bestPendingJob q.jobs step.name revision none none with
    | none =>
        rw [hbs] at hA
        simp only [Option.isSome_none, Bool.false_eq_true, if_false] at hA
        rw [hA]
        have hB : (q.jobs.countP (fun j => isRootRowOf step dataset revision j &&
            !(setRevisionDeletes g dataset revision q).contains j.job_id)) = 0 := by
          rw [List.countP_eq_zero]
          intro j hj hpred
          simp only [Bool.and_eq_true] at hpred
          obtain ⟨hp1, hp2⟩ := hpred
          rw [hsurv j hj] at hp2
          obtain ⟨st, hst, b, hbb, hbid⟩ := (hKmem j.job_id).mp hp2
          have hbprops := hbest st b hbb
          have hbj : b = j := hinj b hbprops.1 j hj hbid
          have hjty : j.type = st.name := by
            rw [← hbj]
            exact hbprops.2.1
          have hjty2 : j.type = step.name := by
            simp only [isRootRowOf, Bool.and_eq_true, beq_iff_eq] at hp1
            exact hp1.1.1.1.1.1
          have hstep2 : st = step := hrinj st hst step hstep (by rw [← hjty, hjty2])
          rw [hstep2, hbs] at hbb
          cases hbb
        rw [hB]
    | some b =>
        rw [hbs] at hA
        simp only [Option.isSome_some, if_true] at hA
        rw [hA]
        have hbprops := hbest step b hbs
        have hbmem := hbprops.1
        obtain ⟨st0, hst0, hrow0⟩ := hq b hbmem
        simp only [isRootRowOf, Bool.and_eq_true, beq_iff_eq] at hrow0
        have hbds : b.dataset = dataset := hrow0.1.1.1.1.2
        have hbst : b.status = Status.waiting := hrow0.2
        have hiff : ∀ j ∈ q.jobs,
            ((isRootRowOf step dataset revision j &&
              !(setRevisionDeletes g dataset revision q).contains j.job_id) = true ↔
              (j == b) = true) := by
          intro j hj
          constructor
          · intro hpred
            simp only [Bool.and_eq_true] at hpred
            obtain ⟨hp1, hp2⟩ := hpred
            rw [hsurv j hj] at hp2
            obtain ⟨st, hst, b2, hbb, hbid⟩ := (hKmem j.job_id).mp hp2
            have hb2props := hbest st b2 hbb
            have hb2j : b2 = j := hinj b2 hb2props.1 j hj hbid
            have hjty : j.type = st.name := by
              rw [← hb2j]
              exact hb2props.2.1
            have hjty2 : j.type = step.name := by
              simp only [isRootRowOf, Bool.and_eq_true, beq_iff_eq] at hp1
              exact hp1.1.1.1.1.1
            have hstep2 : st = step := hrinj st hst step hstep (by rw [← hjty, hjty2])
            rw [hstep2, hbs] at hbb
            have : b2 = b := Option.some.inj hbb.symm
            rw [← hb2j, this]
            exact beq_self_eq_true b
          · intro hjb
            have hjbeq : j = b := by simpa using hjb
            simp only [Bool.and_eq_true]
            constructor
            · simp only [isRootRowOf, Bool.and_eq_true, beq_iff_eq, hjbeq]
              exact ⟨⟨⟨⟨⟨hbprops.2.1, hbds⟩, hbprops.2.2.1⟩, hbprops.2.2.2.1⟩,
                hbprops.2.2.2.2⟩, hbst⟩
            · rw [hjbeq, hsurv b hbmem]
              exact (hKmem b.job_id).mpr ⟨step, hstep, b, hbs, rfl⟩
        rw [List.countP_congr hiff]
        have hcount : q.jobs.countP (fun j => j == b) = q.jobs.count b := rfl
        rw [hcount, List.count_eq_one_of_mem (List.Nodup.of_map _ hid) hbmem]
  · rw [List.all_eq_true]
    intro j hj
    rw [hresult, List.mem_append] at hj
    rw [List.any_eq_true]
    rcases hj with hj | hj
    · have hj2 := List.mem_filter.mp hj
      exact hq j hj2.1
    · obtain ⟨id, info, hinfo, hjeq⟩ := mem_createdRows now q.nextId _ j hj
      rw [hcreates, List.mem_filterMap] at hinfo
      obtain ⟨step, hstep, hif⟩ := hinfo
      by_cases hb : (bestPendingJob q.jobs step.name revision none none).isSome
      · rw [if_pos hb] at hif
        cases hif
      · rw [if_neg hb] at hif
        have hinfo2 : info = mkRootJobInfo step dataset revision priority :=
          (Option.some.inj hif).symm
        refine ⟨step, hstep, ?_⟩
        rw [hjeq, hinfo2, isRootRowOf_mkWaitingRow]
        simp [isRootInfoOf, mkRootJobInfo]

/-- Witness for claim C6: on the genealogy graph (roots DA and DB) with two
duplicate WAITING DA rows, `set_revision` leaves exactly one WAITING row per
root and nothing else. -/
theorem set_revision_one_per_root_witness :
    ((processingGraphGenealogy.get_first_processing_steps).all (fun step =>
        (setRevision processingGraphGenealogy "dataset" "revision" Priority.normal twoDAQueue
            5).jobs.countP (isRootRowOf step "dataset" "revision") == 1)) = true ∧
    ((setRevision processingGraphGenealogy "dataset" "revision" Priority.normal twoDAQueue
        5).jobs.all (fun j =>
        processingGraphGenealogy.get_first_processing_steps.any (fun step =>
          isRootRowOf step "dataset" "revision" j))) = true :=
  set_revision_one_per_root processingGraphGenealogy "dataset" "revision" Priority.normal
    twoDAQueue 5 (by decide) (by decide) (by decide)

end DatasetsServer
